import Mathlib

/-!
Verification of the constrained-optimization example in `Optimization.py`.

The file has two layers:

* A direct embedding of the Python problem definition (`production_cost`,
  `product_quality`, `multi_objective`, the two inequality constraints, the
  bounds and the initial guess) as functions on `List ℝ`, where `x.getD j 0`
  plays the role of the Python subscript `x[j]`.

* A model of the constrained nonlinear solver (`solve`).  The repository calls
  `scipy.optimize.minimize(..., method='SLSQP', ...)`, whose implementation is
  not part of the repository; the specification describes the solver's
  contract and design-level algorithm, and the model below follows those
  words.  The model is generic over a linear ordered field so that concrete
  runs can be evaluated exactly over `ℚ` while the program's own instance is
  taken over `ℝ`.
-/

/-- `production_cost` from `Optimization.py`:
`cost_A * x[0] + cost_B * x[1]` with `cost_A = 5`, `cost_B = 10`. -/
def production_cost (x : List ℝ) : ℝ :=
  5 * x.getD 0 0 + 10 * x.getD 1 0

/-- `product_quality` from `Optimization.py`:
`-np.sqrt(x[0]) + 2 * np.log1p(x[1])`, where `log1p t = log (1 + t)`. -/
noncomputable def product_quality (x : List ℝ) : ℝ :=
  -Real.sqrt (x.getD 0 0) + 2 * Real.log (1 + x.getD 1 0)

/-- `multi_objective` from `Optimization.py`:
`production_cost(x) - product_quality(x)`. -/
noncomputable def multi_objective (x : List ℝ) : ℝ :=
  production_cost x - product_quality x

/-- First inequality constraint of `main`: `lambda x: 10 - x[0]`. -/
def consA : List ℝ → ℝ := fun x => 10 - x.getD 0 0

/-- Second inequality constraint of `main`: `lambda x: 5 - x[1]`. -/
def consB : List ℝ → ℝ := fun x => 5 - x.getD 1 0

/-- The bounds of `main`: `[(1, 10), (1, 10)]`. -/
def progBounds : List (ℝ × ℝ) := [(1, 10), (1, 10)]

/-- The initial guess of `main`: `x0 = [1, 1]`. -/
def progX0 : List ℝ := [1, 1]

lemma multi_objective_pair (a b : ℝ) :
    multi_objective [a, b] =
      5 * a + 10 * b + Real.sqrt a - 2 * Real.log (1 + b) := by
  simp [multi_objective, production_cost, product_quality]
  ring

/-- The objective is monotone in the first coordinate on `x₀ ≥ 0`. -/
lemma multi_objective_mono_fst {a b x1 : ℝ} (hab : a ≤ b) :
    multi_objective [a, x1] ≤ multi_objective [b, x1] := by
  rw [multi_objective_pair, multi_objective_pair]
  have h1 : Real.sqrt a ≤ Real.sqrt b := Real.sqrt_le_sqrt hab
  linarith

/-- The objective is monotone in the second coordinate on `x₁ ≥ 1`:
the linear cost term `10 * x₁` dominates the quality term `2 * log (1 + x₁)`. -/
lemma multi_objective_mono_snd {x0 a b : ℝ} (ha : 1 ≤ a) (hab : a ≤ b) :
    multi_objective [x0, a] ≤ multi_objective [x0, b] := by
  rw [multi_objective_pair, multi_objective_pair]
  have hpa : (0 : ℝ) < 1 + a := by linarith
  have hpb : (0 : ℝ) < 1 + b := by linarith
  have hlog : Real.log (1 + b) - Real.log (1 + a) ≤ b - a := by
    have hq : (0 : ℝ) < (1 + b) / (1 + a) := div_pos hpb hpa
    have h0 := Real.log_le_sub_one_of_pos hq
    rw [Real.log_div (ne_of_gt hpb) (ne_of_gt hpa)] at h0
    have h2 : (1 + b) / (1 + a) - 1 = (b - a) / (1 + a) := by
      field_simp
    rw [h2] at h0
    have h3 : (b - a) / (1 + a) ≤ b - a :=
      div_le_self (by linarith) (by linarith)
    linarith
  linarith

/-- Convergence status of a solver run (spec §3, Result). -/
inductive SolveStatus : Type where
  | converged
  | maxIterationsExceeded
  | infeasibleStart
  | lineSearchFailure
  deriving DecidableEq

/-- Options record for the solver (spec §4.1): `max_iter` caps outer
iterations, `tol` is the convergence tolerance on step size and constraint
violation, `step_eps` the finite-difference perturbation size. -/
structure SolveOptions (K : Type) where
  max_iter : ℕ
  tol : K
  step_eps : K
  deriving DecidableEq

/-- Result record of a solve call (spec §3). -/
structure SolveResult (K : Type) where
  x : List K
  fval : K
  success : Bool
  status : SolveStatus
  nit : ℕ
  nfev : ℕ
  deriving DecidableEq

variable {K : Type} [LinearOrderedField K]

/-- Clamp one coordinate into `[lo, hi]` (spec §4.1 step 3: trial points are
clipped to bounds exactly). -/
def clipOne (lo hi v : K) : K := max lo (min v hi)

/-- Clip a vector into the bound box, coordinate by coordinate. -/
def clipVec (bounds : List (K × K)) (x : List K) : List K :=
  List.zipWith (fun b v => clipOne b.1 b.2 v) bounds x

/-- `x` with coordinate `j` shifted by `eps`, used for forward differences. -/
def bump (x : List K) (j : ℕ) (eps : K) : List K :=
  x.set j (x.getD j 0 + eps)

/-- Forward finite-difference gradient (spec §4.1 step 1), reusing the known
value `fx = f x` so each component costs one objective evaluation. -/
def fdGrad (f : List K → K) (x : List K) (fx eps : K) : List K :=
  (List.range x.length).map fun j => (f (bump x j eps) - fx) / eps

/-- L1 constraint-violation norm `Σ max 0 (-gᵢ x)` (spec §4.1 step 5;
a constraint is feasible when `gᵢ x ≥ 0`). -/
def violation (cons : List (List K → K)) (x : List K) : K :=
  (cons.map fun g => max 0 (-g x)).sum

/-- Penalty weight of the L1 merit function (spec §4.1 step 3). -/
def meritMu : K := 10

/-- Sufficient-decrease coefficient of the line search (spec §4.1 step 3). -/
def armijoC : K := 1 / 10000

/-- Dot product of two vectors. -/
def dot (a b : List K) : K := (List.zipWith (· * ·) a b).sum

/-- L1 norm of the step between consecutive iterates (spec §4.1 step 5). -/
def stepNorm (x y : List K) : K := (List.zipWith (fun a b => |a - b|) x y).sum

/-- Search direction (spec §4.1 step 2): the quadratic subproblem
`min ½‖d‖² + gᵀd` with identity Hessian subject to the box `lo ≤ x + d ≤ hi`
has the closed-form solution `d_j = clamp (-g_j) (lo_j - x_j) (hi_j - x_j)`;
general inequality constraints are enforced through the merit line search. -/
def direction (g x : List K) (bounds : List (K × K)) : List K :=
  List.zipWith (fun p gj => clipOne (p.1.1 - p.2) (p.1.2 - p.2) (-gj))
    (bounds.zip x) g

/-- Backtracking line search (spec §4.1 steps 3 and 5): starting from step
length `alpha`, accept the first clipped trial point meeting the
sufficient-decrease condition on the L1 merit function against the current
merit value `meritX`, halving `alpha` otherwise within the given backtracking
budget (~20 halvings).  Returns the accepted point, its objective value and
the number of trials used, or `none` when the budget is exhausted. -/
def lineSearch (f : List K → K) (cons : List (List K → K))
    (bounds : List (K × K)) (x d : List K) (meritX gd : K) :
    ℕ → K → Option (List K × K × ℕ)
  | 0, _ => none
  | budget + 1, alpha =>
    let x' := clipVec bounds (List.zipWith (fun xj dj => xj + alpha * dj) x d)
    let fx' := f x'
    if fx' + meritMu * violation cons x' ≤ meritX + armijoC * alpha * gd then
      some (x', fx', 1)
    else
      match lineSearch f cons bounds x d meritX gd budget (alpha / 2) with
      | none => none
      | some (p, fp, k) => some (p, fp, k + 1)

/-- Working state of the outer SQP loop (spec §3, Iterate): current point,
its objective value, outer-iteration counter and evaluation counter. -/
structure IterState (K : Type) where
  x : List K
  fx : K
  iter : ℕ
  nfev : ℕ

/-- Outcome of one outer iteration: a final result, or the next state. -/
inductive StepOut (K : Type) where
  | done : SolveResult K → StepOut K
  | next : IterState K → StepOut K

/-- Modelled from the spec: one outer iteration of the SQP loop of §4.1 (the
solver the repository calls — scipy's SLSQP — is not part of the source tree).
Estimate the gradient by forward differences, solve the box-constrained
quadratic subproblem with identity Hessian for a direction, run the merit
line search, and test convergence of the step norm and the constraint
violation against `tol`.  The Hessian approximation stays the identity (the
spec's BFGS update initialised to the identity, with the damped/skip rule
taken as always skipping in this minimal model); exhausting the line-search
budget reports `lineSearchFailure` (spec §4.1 step 5). -/
def sqpStep (f : List K → K) (cons : List (List K → K))
    (bounds : List (K × K)) (opts : SolveOptions K) (st : IterState K) :
    StepOut K :=
  let n := st.x.length
  let m := cons.length
  let g := fdGrad f st.x st.fx opts.step_eps
  let d := direction g st.x bounds
  let meritX := st.fx + meritMu * violation cons st.x
  match lineSearch f cons bounds st.x d meritX (dot g d) 20 1 with
  | none =>
      .done { x := st.x, fval := st.fx, success := false,
              status := .lineSearchFailure, nit := st.iter + 1,
              nfev := st.nfev + n + m + 20 * (1 + m) }
  | some (x', fx', trials) =>
      let nfev' := st.nfev + n + m + trials * (1 + m) + m
      if stepNorm x' st.x < opts.tol ∧ violation cons x' < opts.tol then
        .done { x := x', fval := fx', success := true, status := .converged,
                nit := st.iter + 1, nfev := nfev' }
      else
        .next { x := x', fx := fx', iter := st.iter + 1, nfev := nfev' }

/-- Modelled from the spec: the outer loop of §4.1, running at most the given
fuel (`max_iter`) iterations; exhausting the fuel reports
`maxIterationsExceeded` with the current best-effort iterate (spec §7). -/
def sqpLoop (f : List K → K) (cons : List (List K → K))
    (bounds : List (K × K)) (opts : SolveOptions K) :
    ℕ → IterState K → SolveResult K
  | 0, st =>
      { x := st.x, fval := st.fx, success := false,
        status := .maxIterationsExceeded, nit := st.iter, nfev := st.nfev }
  | fuel + 1, st =>
      match sqpStep f cons bounds opts st with
      | .done r => r
      | .next st' => sqpLoop f cons bounds opts fuel st'

/-- Modelled from the spec: `solve(f, bounds, constraints, x0, options) →
Result` (§4.1), the contract of the external `minimize(..., method='SLSQP')`
call.  Malformed input — mismatched lengths or `lo > hi` — is a hard
precondition failure reported immediately as `none` (spec §4.1/§7);
otherwise `x0` is clipped into the bounds before the first iteration
(spec §4.1 tie-breaks) and the SQP loop runs at most `max_iter` iterations. -/
def solve (f : List K → K) (bounds : List (K × K))
    (cons : List (List K → K)) (x0 : List K) (opts : SolveOptions K) :
    Option (SolveResult K) :=
  if bounds.length = x0.length ∧ ∀ p ∈ bounds, p.1 ≤ p.2 then
    let xs := clipVec bounds x0
    some (sqpLoop f cons bounds opts opts.max_iter
      { x := xs, fx := f xs, iter := 0, nfev := 1 })
  else none

/-- Default options (spec §4.1): `max_iter ~100`, `tol ~1e-6`,
`step_eps ~1e-8`. -/
def defaultOpts : SolveOptions K :=
  { max_iter := 100, tol := 1 / 1000000, step_eps := 1 / 100000000 }

/-- The solver call of `main`:
`minimize(multi_objective, x0, method='SLSQP', bounds=bounds, constraints=cons)`. -/
noncomputable def progResult : Option (SolveResult ℝ) :=
  solve multi_objective progBounds [consA, consB] progX0 defaultOpts

lemma solve_valid (f : List K → K) (bounds : List (K × K))
    (cons : List (List K → K)) (x0 : List K) (opts : SolveOptions K)
    (h1 : bounds.length = x0.length) (h2 : ∀ p ∈ bounds, p.1 ≤ p.2) :
    solve f bounds cons x0 opts =
      some (sqpLoop f cons bounds opts opts.max_iter
        { x := clipVec bounds x0, fx := f (clipVec bounds x0),
          iter := 0, nfev := 1 }) := by
  simp only [solve, if_pos (And.intro h1 h2)]

lemma sqpLoop_zero (f : List K → K) (cons : List (List K → K))
    (bounds : List (K × K)) (opts : SolveOptions K) (st : IterState K) :
    sqpLoop f cons bounds opts 0 st =
      { x := st.x, fval := st.fx, success := false,
        status := .maxIterationsExceeded, nit := st.iter, nfev := st.nfev } :=
  rfl

lemma sqpLoop_succ (f : List K → K) (cons : List (List K → K))
    (bounds : List (K × K)) (opts : SolveOptions K) (fuel : ℕ)
    (st : IterState K) :
    sqpLoop f cons bounds opts (fuel + 1) st =
      match sqpStep f cons bounds opts st with
      | .done r => r
      | .next st' => sqpLoop f cons bounds opts fuel st' :=
  rfl

lemma lineSearch_accept (f : List K → K) (cons : List (List K → K))
    (bounds : List (K × K)) (x d : List K) (meritX gd : K) (budget : ℕ)
    (alpha : K) (x' : List K)
    (hx : clipVec bounds (List.zipWith (fun xj dj => xj + alpha * dj) x d) = x')
    (h : f x' + meritMu * violation cons x' ≤ meritX + armijoC * alpha * gd) :
    lineSearch f cons bounds x d meritX gd (budget + 1) alpha =
      some (x', f x', 1) := by
  simp only [lineSearch, hx, if_pos h]

lemma sqpStep_done (f : List K → K) (cons : List (List K → K))
    (bounds : List (K × K)) (opts : SolveOptions K) (st : IterState K)
    (g d x' : List K) (fx' : K) (trials : ℕ)
    (hg : fdGrad f st.x st.fx opts.step_eps = g)
    (hd : direction g st.x bounds = d)
    (hls : lineSearch f cons bounds st.x d
        (st.fx + meritMu * violation cons st.x) (dot g d) 20 1 =
        some (x', fx', trials))
    (hconv : stepNorm x' st.x < opts.tol ∧ violation cons x' < opts.tol) :
    sqpStep f cons bounds opts st =
      .done { x := x', fval := fx', success := true, status := .converged,
              nit := st.iter + 1,
              nfev := st.nfev + st.x.length + cons.length +
                trials * (1 + cons.length) + cons.length } := by
  simp only [sqpStep, hg, hd, hls, if_pos hconv]

lemma sqpStep_next (f : List K → K) (cons : List (List K → K))
    (bounds : List (K × K)) (opts : SolveOptions K) (st : IterState K)
    (g d x' : List K) (fx' : K) (trials : ℕ)
    (hg : fdGrad f st.x st.fx opts.step_eps = g)
    (hd : direction g st.x bounds = d)
    (hls : lineSearch f cons bounds st.x d
        (st.fx + meritMu * violation cons st.x) (dot g d) 20 1 =
        some (x', fx', trials))
    (hconv : ¬(stepNorm x' st.x < opts.tol ∧ violation cons x' < opts.tol)) :
    sqpStep f cons bounds opts st =
      .next { x := x', fx := fx', iter := st.iter + 1,
              nfev := st.nfev + st.x.length + cons.length +
                trials * (1 + cons.length) + cons.length } := by
  simp only [sqpStep, hg, hd, hls, if_neg hconv]

lemma sqpLoop_succ_done {f : List K → K} {cons : List (List K → K)}
    {bounds : List (K × K)} {opts : SolveOptions K} {fuel : ℕ}
    {st : IterState K} {r : SolveResult K}
    (h : sqpStep f cons bounds opts st = .done r) :
    sqpLoop f cons bounds opts (fuel + 1) st = r := by
  rw [sqpLoop_succ, h]

lemma sqpLoop_succ_next {f : List K → K} {cons : List (List K → K)}
    {bounds : List (K × K)} {opts : SolveOptions K} {fuel : ℕ}
    {st st' : IterState K}
    (h : sqpStep f cons bounds opts st = .next st') :
    sqpLoop f cons bounds opts (fuel + 1) st =
      sqpLoop f cons bounds opts fuel st' := by
  rw [sqpLoop_succ, h]

/-- `x` has one coordinate per bound pair and every coordinate lies in its
interval (the invariant of spec §3; `getD` mirrors Python subscripting). -/
def inBox (bounds : List (K × K)) (x : List K) : Prop :=
  x.length = bounds.length ∧
    ∀ j, j < bounds.length →
      (bounds.getD j (0, 0)).1 ≤ x.getD j 0 ∧
        x.getD j 0 ≤ (bounds.getD j (0, 0)).2

/-- Objective/constraint evaluations one outer iteration can spend:
`n` gradient evaluations, the merit baseline and the convergence check
(`m` constraint evaluations each), and at most 20 line-search trials of
`1 + m` evaluations each. -/
def perIterEvals (n m : ℕ) : ℕ := n + 2 * m + 20 * (1 + m)

/-- Per-iteration evaluation budget, absorbing the initial objective
evaluation at the clipped starting point. -/
def evalBudget (n m : ℕ) : ℕ := perIterEvals n m + 1

lemma clipOne_mem {lo hi : K} (v : K) (h : lo ≤ hi) :
    lo ≤ clipOne lo hi v ∧ clipOne lo hi v ≤ hi :=
  ⟨le_max_left _ _, max_le h (min_le_right _ _)⟩

lemma clipVec_inBox (bounds : List (K × K)) (y : List K)
    (hval : ∀ p ∈ bounds, p.1 ≤ p.2) (hlen : bounds.length ≤ y.length) :
    inBox bounds (clipVec bounds y) := by
  induction bounds generalizing y with
  | nil =>
    exact ⟨by simp [clipVec], fun j hj => absurd hj (by simp)⟩
  | cons b bs ih =>
    cases y with
    | nil => simp at hlen
    | cons v vs =>
      have hb : b.1 ≤ b.2 := hval b (List.mem_cons_self _ _)
      have hval' : ∀ p ∈ bs, p.1 ≤ p.2 := fun p hp =>
        hval p (List.mem_cons_of_mem _ hp)
      have hlen' : bs.length ≤ vs.length := by simpa using hlen
      obtain ⟨ihl, ihm⟩ := ih vs hval' hlen'
      refine ⟨by simpa [clipVec] using ihl, ?_⟩
      intro j hj
      cases j with
      | zero =>
        simpa [clipVec, List.getD_cons_zero] using clipOne_mem v hb
      | succ j' =>
        have hj' : j' < bs.length := by simpa using hj
        simpa [clipVec, List.getD_cons_succ] using ihm j' hj'

lemma lineSearch_some_inBox {f : List K → K} {cons : List (List K → K)}
    {bounds : List (K × K)} {x d : List K} {meritX gd : K} {budget : ℕ}
    {alpha : K} {x' : List K} {fx' : K} {trials : ℕ}
    (hval : ∀ p ∈ bounds, p.1 ≤ p.2)
    (hx : bounds.length ≤ x.length) (hd : bounds.length ≤ d.length)
    (h : lineSearch f cons bounds x d meritX gd budget alpha =
      some (x', fx', trials)) :
    inBox bounds x' := by
  induction budget generalizing alpha x' fx' trials with
  | zero => simp [lineSearch] at h
  | succ b ih =>
    simp only [lineSearch] at h
    split at h
    · simp only [Option.some.injEq, Prod.mk.injEq] at h
      obtain ⟨h1, _, _⟩ := h
      subst h1
      exact clipVec_inBox bounds _ hval
        (by rw [List.length_zipWith]; exact le_min hx hd)
    · split at h
      · exact absurd h (by simp)
      · rename_i p heq
        simp only [Option.some.injEq, Prod.mk.injEq] at h
        obtain ⟨h1, _, _⟩ := h
        subst h1
        exact ih heq

lemma lineSearch_trials_le {f : List K → K} {cons : List (List K → K)}
    {bounds : List (K × K)} {x d : List K} {meritX gd : K} {budget : ℕ}
    {alpha : K} {x' : List K} {fx' : K} {trials : ℕ}
    (h : lineSearch f cons bounds x d meritX gd budget alpha =
      some (x', fx', trials)) :
    trials ≤ budget := by
  induction budget generalizing alpha x' fx' trials with
  | zero => simp [lineSearch] at h
  | succ b ih =>
    simp only [lineSearch] at h
    split at h
    · simp only [Option.some.injEq, Prod.mk.injEq] at h
      omega
    · split at h
      · exact absurd h (by simp)
      · rename_i p heq
        simp only [Option.some.injEq, Prod.mk.injEq] at h
        have := ih heq
        omega

lemma sqpStep_spec (f : List K → K) (cons : List (List K → K))
    (bounds : List (K × K)) (opts : SolveOptions K) (st : IterState K)
    (hval : ∀ p ∈ bounds, p.1 ≤ p.2) (hlen : bounds.length ≤ st.x.length) :
    sqpStep f cons bounds opts st = .done
        { x := st.x, fval := st.fx, success := false,
          status := .lineSearchFailure, nit := st.iter + 1,
          nfev := st.nfev + st.x.length + cons.length +
            20 * (1 + cons.length) } ∨
    ∃ x' fx' trials, trials ≤ 20 ∧ inBox bounds x' ∧
      (stepNorm x' st.x < opts.tol ∧ violation cons x' < opts.tol ∧
          sqpStep f cons bounds opts st = .done
            { x := x', fval := fx', success := true, status := .converged,
              nit := st.iter + 1,
              nfev := st.nfev + st.x.length + cons.length +
                trials * (1 + cons.length) + cons.length } ∨
        sqpStep f cons bounds opts st = .next
            { x := x', fx := fx', iter := st.iter + 1,
              nfev := st.nfev + st.x.length + cons.length +
                trials * (1 + cons.length) + cons.length }) := by
  cases hls : lineSearch f cons bounds st.x
      (direction (fdGrad f st.x st.fx opts.step_eps) st.x bounds)
      (st.fx + meritMu * violation cons st.x)
      (dot (fdGrad f st.x st.fx opts.step_eps)
        (direction (fdGrad f st.x st.fx opts.step_eps) st.x bounds)) 20 1 with
  | none =>
    left
    simp only [sqpStep, hls]
  | some t =>
    obtain ⟨x', fx', trials⟩ := t
    right
    have hdlen : bounds.length ≤
        (direction (fdGrad f st.x st.fx opts.step_eps) st.x bounds).length := by
      simp only [direction, fdGrad, List.length_zipWith, List.length_zip,
        List.length_map, List.length_range]
      omega
    refine ⟨x', fx', trials, lineSearch_trials_le hls,
      lineSearch_some_inBox hval hlen hdlen hls, ?_⟩
    by_cases hc : stepNorm x' st.x < opts.tol ∧ violation cons x' < opts.tol
    · exact Or.inl ⟨hc.1, hc.2, by simp only [sqpStep, hls, if_pos hc]⟩
    · exact Or.inr (by simp only [sqpStep, hls, if_neg hc])

lemma sqpLoop_spec (f : List K → K) (cons : List (List K → K))
    (bounds : List (K × K)) (opts : SolveOptions K) (fuel : ℕ)
    (st : IterState K) (hval : ∀ p ∈ bounds, p.1 ≤ p.2)
    (hst : inBox bounds st.x) :
    inBox bounds (sqpLoop f cons bounds opts fuel st).x ∧
    ((sqpLoop f cons bounds opts fuel st).status = .converged →
      violation cons (sqpLoop f cons bounds opts fuel st).x < opts.tol) ∧
    ((sqpLoop f cons bounds opts fuel st).success = true ↔
      (sqpLoop f cons bounds opts fuel st).status = .converged) ∧
    (sqpLoop f cons bounds opts fuel st).nit ≤ st.iter + fuel ∧
    ((sqpLoop f cons bounds opts fuel st).status = .maxIterationsExceeded →
      (sqpLoop f cons bounds opts fuel st).nit = st.iter + fuel) ∧
    (sqpLoop f cons bounds opts fuel st).nfev ≤
      st.nfev + fuel * perIterEvals bounds.length cons.length := by
  induction fuel generalizing st with
  | zero =>
    exact ⟨hst, by simp [sqpLoop_zero], by simp [sqpLoop_zero],
      by simp [sqpLoop_zero], by simp [sqpLoop_zero], by simp [sqpLoop_zero]⟩
  | succ fuel ih =>
    rcases sqpStep_spec f cons bounds opts st hval hst.1.ge with
      hfail | ⟨x', fx', trials, htr, hx', hrest⟩
    · rw [sqpLoop_succ_done hfail]
      have hnfev : st.nfev + st.x.length + cons.length +
          20 * (1 + cons.length) ≤
          st.nfev + (fuel + 1) * perIterEvals bounds.length cons.length := by
        have h1 : perIterEvals bounds.length cons.length ≤
            (fuel + 1) * perIterEvals bounds.length cons.length := by
          have := Nat.le_add_left (perIterEvals bounds.length cons.length)
            (fuel * perIterEvals bounds.length cons.length)
          rwa [← Nat.succ_mul] at this
        have h2 := hst.1
        unfold perIterEvals at h1 ⊢
        omega
      exact ⟨hst, by simp, by simp,
        Nat.add_le_add_left (Nat.le_add_left 1 fuel) st.iter, by simp, hnfev⟩
    · have hinc : st.nfev + st.x.length + cons.length +
          trials * (1 + cons.length) + cons.length ≤
          st.nfev + perIterEvals bounds.length cons.length := by
        have hA : trials * (1 + cons.length) ≤ 20 * (1 + cons.length) :=
          Nat.mul_le_mul_right _ htr
        have h2 := hst.1
        unfold perIterEvals
        omega
      have hmul : perIterEvals bounds.length cons.length ≤
          (fuel + 1) * perIterEvals bounds.length cons.length := by
        have := Nat.le_add_left (perIterEvals bounds.length cons.length)
          (fuel * perIterEvals bounds.length cons.length)
        rwa [← Nat.succ_mul] at this
      rcases hrest with ⟨hstep, hviol, hdone⟩ | hnext
      · rw [sqpLoop_succ_done hdone]
        refine ⟨hx', fun _ => hviol, by simp,
          Nat.add_le_add_left (Nat.le_add_left 1 fuel) st.iter, by simp, ?_⟩
        exact le_trans hinc (Nat.add_le_add_left hmul st.nfev)
      · rw [sqpLoop_succ_next hnext]
        obtain ⟨ih1, ih2, ih3, ih4, ih5, ih6⟩ :=
          ih { x := x', fx := fx', iter := st.iter + 1,
               nfev := st.nfev + st.x.length + cons.length +
                 trials * (1 + cons.length) + cons.length } hx'
        have ih4' : (sqpLoop f cons bounds opts fuel
            { x := x', fx := fx', iter := st.iter + 1,
              nfev := st.nfev + st.x.length + cons.length +
                trials * (1 + cons.length) + cons.length }).nit ≤
            st.iter + 1 + fuel := ih4
        have ih5' : (sqpLoop f cons bounds opts fuel
            { x := x', fx := fx', iter := st.iter + 1,
              nfev := st.nfev + st.x.length + cons.length +
                trials * (1 + cons.length) + cons.length }).status =
              .maxIterationsExceeded →
            (sqpLoop f cons bounds opts fuel
            { x := x', fx := fx', iter := st.iter + 1,
              nfev := st.nfev + st.x.length + cons.length +
                trials * (1 + cons.length) + cons.length }).nit =
            st.iter + 1 + fuel := ih5
        have ih6' : (sqpLoop f cons bounds opts fuel
            { x := x', fx := fx', iter := st.iter + 1,
              nfev := st.nfev + st.x.length + cons.length +
                trials * (1 + cons.length) + cons.length }).nfev ≤
            st.nfev + st.x.length + cons.length +
              trials * (1 + cons.length) + cons.length +
              fuel * perIterEvals bounds.length cons.length := ih6
        have hsm : (fuel + 1) * perIterEvals bounds.length cons.length =
            fuel * perIterEvals bounds.length cons.length +
              perIterEvals bounds.length cons.length := Nat.succ_mul _ _
        refine ⟨ih1, ih2, ih3, by omega, by intro hm; have := ih5' hm; omega, ?_⟩
        omega

lemma solve_spec {f : List K → K} {bounds : List (K × K)}
    {cons : List (List K → K)} {x0 : List K} {opts : SolveOptions K}
    {r : SolveResult K} (h : solve f bounds cons x0 opts = some r) :
    inBox bounds r.x ∧
    (r.status = .converged → violation cons r.x < opts.tol) ∧
    (r.success = true ↔ r.status = .converged) ∧
    r.nit ≤ opts.max_iter ∧
    (r.status = .maxIterationsExceeded → r.nit = opts.max_iter) ∧
    (1 ≤ opts.max_iter →
      r.nfev ≤ opts.max_iter * evalBudget bounds.length cons.length) := by
  unfold solve at h
  split at h
  · rename_i hcond
    simp only [Option.some.injEq] at h
    subst h
    have hinit : inBox bounds (clipVec bounds x0) :=
      clipVec_inBox bounds x0 hcond.2 hcond.1.le
    obtain ⟨s1, s2, s3, s4, s5, s6⟩ := sqpLoop_spec f cons bounds opts
      opts.max_iter
      { x := clipVec bounds x0, fx := f (clipVec bounds x0),
        iter := 0, nfev := 1 } hcond.2 hinit
    have s4' : (sqpLoop f cons bounds opts opts.max_iter
        { x := clipVec bounds x0, fx := f (clipVec bounds x0),
          iter := 0, nfev := 1 }).nit ≤ 0 + opts.max_iter := s4
    have s5' : (sqpLoop f cons bounds opts opts.max_iter
        { x := clipVec bounds x0, fx := f (clipVec bounds x0),
          iter := 0, nfev := 1 }).status = .maxIterationsExceeded →
        (sqpLoop f cons bounds opts opts.max_iter
        { x := clipVec bounds x0, fx := f (clipVec bounds x0),
          iter := 0, nfev := 1 }).nit = 0 + opts.max_iter := s5
    have s6' : (sqpLoop f cons bounds opts opts.max_iter
        { x := clipVec bounds x0, fx := f (clipVec bounds x0),
          iter := 0, nfev := 1 }).nfev ≤
        1 + opts.max_iter * perIterEvals bounds.length cons.length := s6
    have hEB : opts.max_iter * evalBudget bounds.length cons.length =
        opts.max_iter * perIterEvals bounds.length cons.length +
          opts.max_iter := by
      unfold evalBudget
      rw [Nat.mul_add, Nat.mul_one]
    exact ⟨s1, s2, s3, by omega, fun hm => by have := s5' hm; omega,
      fun hmi => by omega⟩
  · exact Option.noConfusion h

lemma violation_lt_each {cons : List (List K → K)} {x : List K} {t : K}
    (h : violation cons x < t) : ∀ g ∈ cons, -t < g x := by
  intro g hg
  have hmem : max 0 (-g x) ∈ cons.map fun g' => max 0 (-g' x) :=
    List.mem_map_of_mem _ hg
  have hnn : ∀ a ∈ cons.map fun g' => max 0 (-g' x), (0 : K) ≤ a := by
    intro a ha
    obtain ⟨g', _, rfl⟩ := List.mem_map.1 ha
    exact le_max_left _ _
  have hterm : max 0 (-g x) ≤ violation cons x :=
    List.single_le_sum hnn _ hmem
  have hlt : -g x < t := lt_of_le_of_lt (le_trans (le_max_right _ _) hterm) h
  linarith

lemma clipOne_zero_of_nonpos (hi : K) {v : K} (hv : v ≤ 0) (hhi : 0 ≤ hi) :
    clipOne 0 hi v = 0 := by
  unfold clipOne
  rw [min_eq_left (le_trans hv hhi), max_eq_left hv]

/-- Running the modelled solver on the program's own problem: the objective is
nondecreasing in both coordinates on the box, so the forward-difference
gradient at the initial guess `[1, 1]` is componentwise nonnegative, the
box-clamped direction is zero, the first line-search trial is accepted with a
zero step, and the run converges at `[1, 1]` after one iteration. -/
lemma progResult_eq : progResult =
    some { x := [1, 1], fval := multi_objective [1, 1], success := true,
           status := .converged, nit := 1, nfev := 10 } := by
  have hclip : clipVec progBounds progX0 = [1, 1] := by
    norm_num [clipVec, clipOne, progBounds, progX0]
  have hv := solve_valid multi_objective progBounds [consA, consB] progX0
    defaultOpts (by norm_num [progBounds, progX0]) (by norm_num [progBounds])
  rw [hclip] at hv
  have hg : fdGrad multi_objective [1, 1] (multi_objective [1, 1])
      (1 / 100000000) =
      [(multi_objective [1 + 1 / 100000000, 1] - multi_objective [1, 1]) /
        (1 / 100000000),
       (multi_objective [1, 1 + 1 / 100000000] - multi_objective [1, 1]) /
        (1 / 100000000)] := by
    norm_num [fdGrad, bump, List.range_succ]
  have hg0 : (0 : ℝ) ≤
      (multi_objective [1 + 1 / 100000000, 1] - multi_objective [1, 1]) /
        (1 / 100000000) :=
    div_nonneg (sub_nonneg.mpr (multi_objective_mono_fst (by norm_num)))
      (by norm_num)
  have hg1 : (0 : ℝ) ≤
      (multi_objective [1, 1 + 1 / 100000000] - multi_objective [1, 1]) /
        (1 / 100000000) :=
    div_nonneg (sub_nonneg.mpr (multi_objective_mono_snd le_rfl (by norm_num)))
      (by norm_num)
  have hd : direction
      [(multi_objective [1 + 1 / 100000000, 1] - multi_objective [1, 1]) /
        (1 / 100000000),
       (multi_objective [1, 1 + 1 / 100000000] - multi_objective [1, 1]) /
        (1 / 100000000)] [1, 1] progBounds = [0, 0] := by
    have e0 := clipOne_zero_of_nonpos (9 : ℝ)
      (neg_nonpos.mpr hg0) (by norm_num)
    have e1 := clipOne_zero_of_nonpos (9 : ℝ)
      (neg_nonpos.mpr hg1) (by norm_num)
    norm_num [direction, progBounds]
    norm_num at e0 e1
    exact ⟨e0, e1⟩
  have hviol : violation [consA, consB] [1, 1] = 0 := by
    norm_num [violation, consA, consB]
  have hdot : dot
      [(multi_objective [1 + 1 / 100000000, 1] - multi_objective [1, 1]) /
        (1 / 100000000),
       (multi_objective [1, 1 + 1 / 100000000] - multi_objective [1, 1]) /
        (1 / 100000000)] [0, 0] = 0 := by
    simp [dot]
  have hls : lineSearch multi_objective [consA, consB] progBounds [1, 1]
      [0, 0] (multi_objective [1, 1] + meritMu * violation [consA, consB] [1, 1])
      (dot
        [(multi_objective [1 + 1 / 100000000, 1] - multi_objective [1, 1]) /
          (1 / 100000000),
         (multi_objective [1, 1 + 1 / 100000000] - multi_objective [1, 1]) /
          (1 / 100000000)] [0, 0]) 20 1 =
      some ([1, 1], multi_objective [1, 1], 1) := by
    rw [show (20 : ℕ) = 19 + 1 from rfl]
    have hx : clipVec progBounds
        (List.zipWith (fun xj dj => xj + 1 * dj) [1, 1] [(0 : ℝ), 0]) =
        [1, 1] := by
      norm_num [clipVec, clipOne, progBounds]
    refine lineSearch_accept _ _ _ _ _ _ _ 19 _ [1, 1] hx ?_
    rw [hviol, hdot]
    norm_num [armijoC]
  have hstep := sqpStep_done multi_objective [consA, consB] progBounds
    defaultOpts
    { x := [1, 1], fx := multi_objective [1, 1], iter := 0, nfev := 1 }
    [(multi_objective [1 + 1 / 100000000, 1] - multi_objective [1, 1]) /
      (1 / 100000000),
     (multi_objective [1, 1 + 1 / 100000000] - multi_objective [1, 1]) /
      (1 / 100000000)] [0, 0] [1, 1] (multi_objective [1, 1]) 1
    hg hd hls
    (by constructor
        · norm_num [stepNorm, defaultOpts]
        · rw [hviol]; norm_num [defaultOpts])
  rw [show (defaultOpts : SolveOptions ℝ).max_iter = 99 + 1 from rfl,
    sqpLoop_succ_done hstep] at hv
  unfold progResult
  rw [hv]
  norm_num

/-- A linear 1-D test objective over `ℚ`, used for exact concrete runs. -/
def wObj : List ℚ → ℚ := fun x => x.getD 0 0

/-- A 1-D inequality constraint over `ℚ` (`1 - x₀ ≥ 0`). -/
def wCon : List ℚ → ℚ := fun x => 1 - x.getD 0 0

/-- Options with a single outer iteration, to exercise non-convergence. -/
def wOpts1 : SolveOptions ℚ :=
  { max_iter := 1, tol := 1 / 1000000, step_eps := 1 / 100000000 }

/-- Result of the run of `wObj` on `[(0, 1)]` from `[0]`. -/
def wRes1 : SolveResult ℚ :=
  { x := [0], fval := 0, success := true, status := .converged,
    nit := 1, nfev := 3 }

/-- Result of the run of `wObj` on `[(0, 10)]` from `[0]` with `wCon`. -/
def wRes2 : SolveResult ℚ :=
  { x := [0], fval := 0, success := true, status := .converged,
    nit := 1, nfev := 6 }

/-- Result of the one-iteration run of `wObj` on `[(0, 10)]` from `[5]`. -/
def wRes3 : SolveResult ℚ :=
  { x := [4], fval := 4, success := false, status := .maxIterationsExceeded,
    nit := 1, nfev := 3 }

lemma wRun1_eq : solve wObj [((0 : ℚ), 1)] [] [0] defaultOpts = some wRes1 := by
  have hclip : clipVec [((0 : ℚ), 1)] [0] = [0] := by
    norm_num [clipVec, clipOne]
  have hv := solve_valid wObj [((0 : ℚ), 1)] [] [0] defaultOpts
    (by norm_num) (by norm_num)
  rw [hclip] at hv
  have hg : fdGrad wObj [0] (wObj [0]) (1 / 100000000) = [1] := by
    norm_num [fdGrad, bump, wObj, List.range_succ]
  have hd : direction [(1 : ℚ)] [0] [(0, 1)] = [0] := by
    norm_num [direction, clipOne]
  have hls : lineSearch wObj [] [((0 : ℚ), 1)] [0] [0]
      (wObj [0] + meritMu * violation [] [0]) (dot [1] [0]) 20 1 =
      some ([0], wObj [0], 1) := by
    rw [show (20 : ℕ) = 19 + 1 from rfl]
    have hx : clipVec [((0 : ℚ), 1)]
        (List.zipWith (fun xj dj => xj + 1 * dj) [0] [0]) = [0] := by
      norm_num [clipVec, clipOne]
    exact lineSearch_accept _ _ _ _ _ _ _ 19 _ [0] hx
      (by norm_num [wObj, violation, meritMu, armijoC, dot])
  have hstep := sqpStep_done wObj [] [((0 : ℚ), 1)] defaultOpts
    { x := [0], fx := wObj [0], iter := 0, nfev := 1 } [1] [0] [0]
    (wObj [0]) 1 hg hd hls
    (by norm_num [stepNorm, violation, defaultOpts])
  rw [show (defaultOpts : SolveOptions ℚ).max_iter = 99 + 1 from rfl,
    sqpLoop_succ_done hstep] at hv
  rw [hv]
  norm_num [wObj, wRes1]

lemma wRun2_eq : solve wObj [((0 : ℚ), 10)] [wCon] [0] defaultOpts =
    some wRes2 := by
  have hclip : clipVec [((0 : ℚ), 10)] [0] = [0] := by
    norm_num [clipVec, clipOne]
  have hv := solve_valid wObj [((0 : ℚ), 10)] [wCon] [0] defaultOpts
    (by norm_num) (by norm_num)
  rw [hclip] at hv
  have hg : fdGrad wObj [0] (wObj [0]) (1 / 100000000) = [1] := by
    norm_num [fdGrad, bump, wObj, List.range_succ]
  have hd : direction [(1 : ℚ)] [0] [(0, 10)] = [0] := by
    norm_num [direction, clipOne]
  have hls : lineSearch wObj [wCon] [((0 : ℚ), 10)] [0] [0]
      (wObj [0] + meritMu * violation [wCon] [0]) (dot [1] [0]) 20 1 =
      some ([0], wObj [0], 1) := by
    rw [show (20 : ℕ) = 19 + 1 from rfl]
    have hx : clipVec [((0 : ℚ), 10)]
        (List.zipWith (fun xj dj => xj + 1 * dj) [0] [0]) = [0] := by
      norm_num [clipVec, clipOne]
    exact lineSearch_accept _ _ _ _ _ _ _ 19 _ [0] hx
      (by norm_num [wObj, wCon, violation, meritMu, armijoC, dot])
  have hstep := sqpStep_done wObj [wCon] [((0 : ℚ), 10)] defaultOpts
    { x := [0], fx := wObj [0], iter := 0, nfev := 1 } [1] [0] [0]
    (wObj [0]) 1 hg hd hls
    (by norm_num [stepNorm, violation, wCon, defaultOpts])
  rw [show (defaultOpts : SolveOptions ℚ).max_iter = 99 + 1 from rfl,
    sqpLoop_succ_done hstep] at hv
  rw [hv]
  norm_num [wObj, wRes2]

lemma wRun3_eq : solve wObj [((0 : ℚ), 10)] [] [5] wOpts1 = some wRes3 := by
  have hclip : clipVec [((0 : ℚ), 10)] [5] = [5] := by
    norm_num [clipVec, clipOne]
  have hv := solve_valid wObj [((0 : ℚ), 10)] [] [5] wOpts1
    (by norm_num) (by norm_num)
  rw [hclip] at hv
  have hg : fdGrad wObj [5] (wObj [5]) (1 / 100000000) = [1] := by
    norm_num [fdGrad, bump, wObj, List.range_succ]
  have hd : direction [(1 : ℚ)] [5] [(0, 10)] = [-1] := by
    norm_num [direction, clipOne]
  have hls : lineSearch wObj [] [((0 : ℚ), 10)] [5] [-1]
      (wObj [5] + meritMu * violation [] [5]) (dot [1] [-1]) 20 1 =
      some ([4], wObj [4], 1) := by
    rw [show (20 : ℕ) = 19 + 1 from rfl]
    have hx : clipVec [((0 : ℚ), 10)]
        (List.zipWith (fun xj dj => xj + 1 * dj) [5] [-1]) = [4] := by
      norm_num [clipVec, clipOne]
    exact lineSearch_accept _ _ _ _ _ _ _ 19 _ [4] hx
      (by norm_num [wObj, violation, meritMu, armijoC, dot])
  have hstep := sqpStep_next wObj [] [((0 : ℚ), 10)] wOpts1
    { x := [5], fx := wObj [5], iter := 0, nfev := 1 } [1] [-1] [4]
    (wObj [4]) 1 hg hd hls
    (by norm_num [stepNorm, violation, wOpts1])
  rw [show (wOpts1).max_iter = 0 + 1 from rfl,
    sqpLoop_succ_next hstep, sqpLoop_zero] at hv
  rw [hv]
  norm_num [wObj, wRes3]

/-- C1: for every input vector `x = [x0, x1]`, `multi_objective` equals the
spec's formula `5*x0 + 10*x1 - (-sqrt(x0) + 2*ln(1+x1))`, and on every input
it is exactly `production_cost` minus `product_quality`. -/
theorem spec_c1_objective_formula :
    ∀ (x0 x1 : ℝ) (x : List ℝ),
      multi_objective [x0, x1] =
        5 * x0 + 10 * x1 - (-Real.sqrt x0 + 2 * Real.log (1 + x1)) ∧
      multi_objective x = production_cost x - product_quality x := by
  intro x0 x1 x
  refine ⟨?_, rfl⟩
  rw [multi_objective_pair]
  ring

/-- C2: whenever `solve` returns a Result, the solution vector satisfies
`lo_j ≤ x*_j ≤ hi_j` in every dimension, regardless of convergence status. -/
theorem spec_c2_bounds_invariant (f : List K → K) (bounds : List (K × K))
    (cons : List (List K → K)) (x0 : List K) (opts : SolveOptions K)
    (r : SolveResult K) (h : solve f bounds cons x0 opts = some r) :
    r.x.length = bounds.length ∧
    ∀ j, j < bounds.length →
      (bounds.getD j (0, 0)).1 ≤ r.x.getD j 0 ∧
        r.x.getD j 0 ≤ (bounds.getD j (0, 0)).2 :=
  (solve_spec h).1

/-- Witness for C2: the concrete exact run `wRun1_eq` over `ℚ`, with the
bound `0 ≤ x*_0 ≤ 1` read off dimension `0`. -/
theorem spec_c2_bounds_invariant_witness :
    solve wObj [((0 : ℚ), 1)] [] [0] defaultOpts = some wRes1 ∧
    (([((0 : ℚ), 1)].getD 0 (0, 0)).1 ≤ wRes1.x.getD 0 0 ∧
      wRes1.x.getD 0 0 ≤ ([((0 : ℚ), 1)].getD 0 (0, 0)).2) :=
  ⟨wRun1_eq,
    (spec_c2_bounds_invariant wObj [((0 : ℚ), 1)] [] [0] defaultOpts wRes1
      wRun1_eq).2 0 (by norm_num)⟩

/-- C3: when `solve` reports `converged`, the returned point satisfies the
bounds exactly and every inequality constraint value at it is `≥ -tol`. -/
theorem spec_c3_converged_feasible (f : List K → K) (bounds : List (K × K))
    (cons : List (List K → K)) (x0 : List K) (opts : SolveOptions K)
    (r : SolveResult K) (h : solve f bounds cons x0 opts = some r)
    (hc : r.status = .converged) :
    (r.x.length = bounds.length ∧
      ∀ j, j < bounds.length →
        (bounds.getD j (0, 0)).1 ≤ r.x.getD j 0 ∧
          r.x.getD j 0 ≤ (bounds.getD j (0, 0)).2) ∧
    ∀ g ∈ cons, -opts.tol ≤ g r.x := by
  obtain ⟨h1, h2, _⟩ := solve_spec h
  exact ⟨h1, fun g hg => le_of_lt (violation_lt_each (h2 hc) g hg)⟩

/-- Witness for C3: the converged constrained run `wRun2_eq` over `ℚ`, whose
constraint value at the solution is above `-tol`. -/
theorem spec_c3_converged_feasible_witness :
    (solve wObj [((0 : ℚ), 10)] [wCon] [0] defaultOpts = some wRes2 ∧
      wRes2.status = .converged) ∧
    ∀ g ∈ [wCon], -(defaultOpts : SolveOptions ℚ).tol ≤ g wRes2.x :=
  ⟨⟨wRun2_eq, rfl⟩,
    (spec_c3_converged_feasible wObj [((0 : ℚ), 10)] [wCon] [0] defaultOpts
      wRes2 wRun2_eq rfl).2⟩

/-- C4 counterexample: for the program's own problem the solve call does NOT
reach an objective value strictly lower than at `[1, 1]` — the run converges
at the initial guess itself, since the objective is nondecreasing in both
coordinates over the box. -/
theorem spec_c4_counterexample :
    ¬ ∃ r, progResult = some r ∧ r.status = .converged ∧
        multi_objective r.x < multi_objective progX0 := by
  rintro ⟨r, hr, _, hlt⟩
  rw [progResult_eq] at hr
  injection hr with h
  subst h
  exact absurd hlt (lt_irrefl _)

/-- C4 amended: for the program's problem the solve call converges, but to the
initial guess `[1, 1]` itself, so its objective value equals (is not strictly
lower than) `multi_objective [1, 1]`. -/
theorem spec_c4_converged_value :
    ∃ r, progResult = some r ∧ r.status = .converged ∧ r.success = true ∧
      r.x = progX0 ∧ multi_objective r.x = multi_objective progX0 :=
  ⟨_, progResult_eq, rfl, rfl, rfl, rfl⟩

/-- C5: `solve` is deterministic — two calls with identical inputs return
identical solution vectors, objective values, statuses, success flags and
iteration/evaluation counts. -/
theorem spec_c5_deterministic (f : List K → K) (bounds : List (K × K))
    (cons : List (List K → K)) (x0 : List K) (opts : SolveOptions K)
    (r1 r2 : SolveResult K)
    (h1 : solve f bounds cons x0 opts = some r1)
    (h2 : solve f bounds cons x0 opts = some r2) :
    r1.x = r2.x ∧ r1.fval = r2.fval ∧ r1.status = r2.status ∧
      r1.success = r2.success ∧ r1.nit = r2.nit ∧ r1.nfev = r2.nfev := by
  have h := h1.symm.trans h2
  simp only [Option.some.injEq] at h
  subst h
  exact ⟨rfl, rfl, rfl, rfl, rfl, rfl⟩

/-- Witness for C5: applying determinism to the concrete run `wRun1_eq`
used twice. -/
theorem spec_c5_deterministic_witness :
    solve wObj [((0 : ℚ), 1)] [] [0] defaultOpts = some wRes1 ∧
    (wRes1.x = wRes1.x ∧ wRes1.fval = wRes1.fval ∧
      wRes1.status = wRes1.status ∧ wRes1.success = wRes1.success ∧
      wRes1.nit = wRes1.nit ∧ wRes1.nfev = wRes1.nfev) :=
  ⟨wRun1_eq,
    spec_c5_deterministic wObj [((0 : ℚ), 1)] [] [0] defaultOpts wRes1 wRes1
      wRun1_eq wRun1_eq⟩

/-- C6: on any well-formed problem, `solve` returns a Result rather than
failing — non-convergence is reported through `status`, with
`success = true` exactly on convergence, so the caller can always read the
best-effort solution vector. -/
theorem spec_c6_no_exception (f : List K → K) (bounds : List (K × K))
    (cons : List (List K → K)) (x0 : List K) (opts : SolveOptions K)
    (h1 : bounds.length = x0.length) (h2 : ∀ p ∈ bounds, p.1 ≤ p.2) :
    ∃ r, solve f bounds cons x0 opts = some r ∧
      (r.success = true ↔ r.status = .converged) :=
  ⟨_, solve_valid f bounds cons x0 opts h1 h2,
    (solve_spec (solve_valid f bounds cons x0 opts h1 h2)).2.2.1⟩

/-- Witness for C6: the one-iteration run `wRun3_eq` hits
`maxIterationsExceeded` with `success = false`, yet a Result is returned. -/
theorem spec_c6_no_exception_witness :
    (([((0 : ℚ), 10)] : List (ℚ × ℚ)).length = [(5 : ℚ)].length ∧
      ∀ p ∈ ([((0 : ℚ), 10)] : List (ℚ × ℚ)), p.1 ≤ p.2) ∧
    ∃ r, solve wObj [((0 : ℚ), 10)] [] [5] wOpts1 = some r ∧
      (r.success = true ↔ r.status = .converged) :=
  ⟨⟨rfl, by norm_num⟩,
    spec_c6_no_exception wObj [((0 : ℚ), 10)] [] [5] wOpts1 rfl
      (by norm_num)⟩

/-- C7: `solve` terminates with at most `max_iter` outer iterations, reports
`maxIterationsExceeded` exactly when the cap is exhausted, and spends at most
`max_iter` times a fixed per-iteration budget of objective and constraint
evaluations. -/
theorem spec_c7_resource_bounds (f : List K → K) (bounds : List (K × K))
    (cons : List (List K → K)) (x0 : List K) (opts : SolveOptions K)
    (r : SolveResult K) (h : solve f bounds cons x0 opts = some r) :
    r.nit ≤ opts.max_iter ∧
    (r.status = .maxIterationsExceeded → r.nit = opts.max_iter) ∧
    (1 ≤ opts.max_iter →
      r.nfev ≤ opts.max_iter * evalBudget bounds.length cons.length) := by
  obtain ⟨_, _, _, h4, h5, h6⟩ := solve_spec h
  exact ⟨h4, h5, h6⟩

/-- Witness for C7: the run `wRun3_eq` exhausts its single allowed iteration,
so its status is `maxIterationsExceeded`, `nit = max_iter = 1` and
`nfev = 3 ≤ 1 * evalBudget 1 0`. -/
theorem spec_c7_resource_bounds_witness :
    solve wObj [((0 : ℚ), 10)] [] [5] wOpts1 = some wRes3 ∧
    (wRes3.nit ≤ wOpts1.max_iter ∧
      (wRes3.status = .maxIterationsExceeded →
        wRes3.nit = wOpts1.max_iter) ∧
      (1 ≤ wOpts1.max_iter →
        wRes3.nfev ≤ wOpts1.max_iter *
          evalBudget ([((0 : ℚ), 10)] : List (ℚ × ℚ)).length
            ([] : List (List ℚ → ℚ)).length)) :=
  ⟨wRun3_eq,
    spec_c7_resource_bounds wObj [((0 : ℚ), 10)] [] [5] wOpts1 wRes3
      wRun3_eq⟩

/-- C8: `production_cost` is linear — exact over the reals — in the two
coordinates of its argument. -/
theorem spec_c8_production_cost_linear :
    ∀ (a b x0 x1 y0 y1 : ℝ),
      production_cost [a * x0 + b * y0, a * x1 + b * y1] =
        a * production_cost [x0, x1] + b * production_cost [y0, y1] := by
  intro a b x0 x1 y0 y1
  simp [production_cost]
  ring

/-- C9: the first constraint `10 - x0` is redundant inside the bound box
`[1,10] × [1,10]`, and the second constraint `5 - x1` excludes a box point
exactly when `x1 > 5`. -/
theorem spec_c9_first_constraint_redundant :
    ∀ x0 x1 : ℝ, 1 ≤ x0 → x0 ≤ 10 → 1 ≤ x1 → x1 ≤ 10 →
      0 ≤ consA [x0, x1] ∧ (consB [x0, x1] < 0 ↔ 5 < x1) := by
  intro x0 x1 h1 h2 h3 h4
  constructor
  · simp only [consA, List.getD_cons_zero]
    linarith
  · simp only [consB, List.getD_cons_succ, List.getD_cons_zero]
    constructor <;> intro <;> linarith

/-- Witness for C9 at the box point `(2, 3)`. -/
theorem spec_c9_first_constraint_redundant_witness :
    ((1 : ℝ) ≤ 2 ∧ (2 : ℝ) ≤ 10 ∧ (1 : ℝ) ≤ 3 ∧ (3 : ℝ) ≤ 10) ∧
    (0 ≤ consA [2, 3] ∧ (consB [(2 : ℝ), 3] < 0 ↔ 5 < (3 : ℝ))) :=
  ⟨by norm_num,
    spec_c9_first_constraint_redundant 2 3 (by norm_num) (by norm_num)
      (by norm_num) (by norm_num)⟩

/-- C10: on the region `x0 ≥ 1, x1 ≥ 1` the square root and logarithm are
applied within their domains — `sqrt x0` genuinely squares back to `x0` and
`log (1 + x1)` inverts `exp` — so `product_quality` and `multi_objective`
take their intended finite closed-form values. -/
theorem spec_c10_objective_total_on_box :
    ∀ x0 x1 : ℝ, 1 ≤ x0 → 1 ≤ x1 →
      Real.sqrt x0 ^ 2 = x0 ∧
      Real.exp (Real.log (1 + x1)) = 1 + x1 ∧
      product_quality [x0, x1] = -Real.sqrt x0 + 2 * Real.log (1 + x1) ∧
      multi_objective [x0, x1] =
        5 * x0 + 10 * x1 + Real.sqrt x0 - 2 * Real.log (1 + x1) := by
  intro x0 x1 h1 h2
  refine ⟨Real.sq_sqrt (by linarith), Real.exp_log (by linarith), ?_,
    multi_objective_pair x0 x1⟩
  simp [product_quality]

/-- Witness for C10 at the initial guess `(1, 1)`. -/
theorem spec_c10_objective_total_on_box_witness :
    ((1 : ℝ) ≤ 1 ∧ (1 : ℝ) ≤ 1) ∧
    (Real.sqrt 1 ^ 2 = 1 ∧
      Real.exp (Real.log (1 + 1)) = 1 + 1 ∧
      product_quality [(1 : ℝ), 1] = -Real.sqrt 1 + 2 * Real.log (1 + 1) ∧
      multi_objective [(1 : ℝ), 1] =
        5 * 1 + 10 * 1 + Real.sqrt 1 - 2 * Real.log (1 + 1)) :=
  ⟨⟨le_refl 1, le_refl 1⟩,
    spec_c10_objective_total_on_box 1 1 le_rfl le_rfl⟩
